import Mathlib

/-!
Shallow embedding of the jewellery e-commerce backend (FastAPI + SQLModel).

The persistent store is modelled as an explicit `DB` record of table rows.
Each HTTP handler becomes a pure function `DB → args → result × DB` where
the returned `DB` is the state as persisted after the request: mutations
made through the ORM session become visible only at `session.commit()`
call sites, and a handler that raises after some commits returns the state
of the last commit (the request-scoped session is closed without commit
when the handler raises, which rolls back everything still pending).
Python floats are modelled as `Rat` and Python ints as `Int` (ids, which
are auto-increment primary keys, as `Nat`).
-/

/-- Mirror of `models.Product` (models.py lines 12-33).  The descriptive
JSON-array fields (`images`, `highlights`, `features`) are never read by
the operations modelled here and are omitted. -/
structure Product where
  id : Nat
  name : String
  price : Rat
  original_price : Option Rat := none
  discount : Option Rat := none
  category : Option String := none
  sub : Option String := none
  description : Option String := none
  image : Option String := none
  rating : Rat := 0
  review_count : Nat := 0
  in_stock : Bool := true
  stock_quantity : Int := 0
  is_featured : Bool := false
  deriving Repr, DecidableEq

/-- Mirror of `models.User` (models.py lines 65-75); `created_at` is
never read by the operations modelled here and is omitted. -/
structure User where
  id : Nat
  email : String
  hashed_password : String
  full_name : Option String := none
  phone : Option String := none
  is_active : Bool := true
  is_admin : Bool := false
  deriving Repr, DecidableEq

/-- Mirror of `models.Review` (models.py lines 82-90); `created_at`
omitted as above. -/
structure Review where
  id : Nat
  user_id : Nat
  product_id : Nat
  rating : Int
  comment : Option String := none
  deriving Repr, DecidableEq

/-- Mirror of `models.CartItem` (models.py lines 102-105). -/
structure CartItem where
  id : Nat
  user_id : Nat
  product_id : Nat
  quantity : Int
  deriving Repr, DecidableEq

/-- Mirror of `models.OrderItem` (models.py lines 117-122). -/
structure OrderItem where
  id : Nat
  order_id : Nat
  product_id : Nat
  quantity : Int
  price : Rat
  deriving Repr, DecidableEq

/-- Mirror of `models.Order` (models.py lines 125-133); `created_at`
omitted as above. -/
structure Order where
  id : Nat
  user_id : Nat
  status : String := "pending"
  total : Rat := 0
  shipping_address : Option String := none
  deriving Repr, DecidableEq

/-- Mirror of `models.CartItemCreate` — the request body of POST /cart/
and PUT /cart/ — whose `quantity` field carries the Pydantic constraint
`ge=1` (models.py line 99), checked by `cartItemCreateValid` below
before any handler runs. -/
structure CartItemCreate where
  product_id : Nat
  quantity : Int
  deriving Repr, DecidableEq

/-- The whole persistent store: one list per table, plus the
auto-increment counter of each primary key. -/
structure DB where
  users : List User := []
  products : List Product := []
  cartItems : List CartItem := []
  orders : List Order := []
  orderItems : List OrderItem := []
  reviews : List Review := []
  nextUserId : Nat := 1
  nextProductId : Nat := 1
  nextCartItemId : Nat := 1
  nextOrderId : Nat := 1
  nextOrderItemId : Nat := 1
  nextReviewId : Nat := 1
  deriving Repr, DecidableEq

/-- Error taxonomy of the HTTP handlers (spec section 7).  Each
constructor is one `raise HTTPException` site; the payloads mirror what
the corresponding detail string interpolates. -/
inductive ApiError where
  /-- Status 404, with the name of the missing entity. -/
  | notFound (what : String)
  /-- Status 400, detail "Cart is empty" (create_order). -/
  | emptyCart
  /-- Status 400, detail "Product is out of stock" (add_to_cart). -/
  | outOfStock
  /-- Status 400, detail "Only n items in stock" (add_to_cart, direct
  stock check). -/
  | onlyInStock (available : Int)
  /-- Status 400, detail "Cannot add q. Cart has e, total would exceed
  stock (s)." (add_to_cart, merged stock check). -/
  | cannotAddExceedsStock (adding existing stock : Int)
  /-- Status 400, detail "Cannot update quantity to q. Only n in stock."
  (update_cart_item). -/
  | cannotUpdateExceedsStock (requested available : Int)
  /-- Status 400, detail "Insufficient stock for product name.
  Available: a, Requested: r" (create_order). -/
  | insufficientStockFor (productName : String) (available requested : Int)
  /-- Status 400, detail "An account with this email already exists"
  (register). -/
  | duplicateEmail
  /-- Status 403 (delete_review by a caller who is neither the author
  nor an admin). -/
  | forbidden (what : String)
  /-- Status 422: the request body failed Pydantic validation, so the
  handler never ran (FastAPI rejects the request first). -/
  | validationError
  deriving Repr, DecidableEq

deriving instance DecidableEq for Except

/-- Primary-key lookup `session.get(models.Product, pid)`. -/
def findProduct (db : DB) (pid : Nat) : Option Product :=
  db.products.find? (fun p => p.id == pid)

/-- Primary-key lookup `session.get(models.CartItem, cid)`. -/
def findCartItem (db : DB) (cid : Nat) : Option CartItem :=
  db.cartItems.find? (fun c => c.id == cid)

/-- Primary-key lookup `session.get(models.Review, rid)`. -/
def findReview (db : DB) (rid : Nat) : Option Review :=
  db.reviews.find? (fun r => r.id == rid)

/-- Committing a mutated product object: the session identity map holds
one object per primary key, so the row with that id becomes the mutated
object. -/
def replaceProduct (db : DB) (p : Product) : DB :=
  { db with products := db.products.map (fun q => if q.id == p.id then p else q) }

/-- Committing a mutated cart-item object, same identity-map
semantics. -/
def replaceCartItem (db : DB) (c : CartItem) : DB :=
  { db with cartItems := db.cartItems.map (fun d => if d.id == c.id then c else d) }

/-- Committing a mutated order object, same identity-map semantics. -/
def replaceOrder (db : DB) (o : Order) : DB :=
  { db with orders := db.orders.map (fun q => if q.id == o.id then o else q) }

/-- Effect of `session.delete` on the cart row that the session fetched
by primary key: the first row with that id is removed. -/
def removeCartRow : List CartItem → Nat → List CartItem
  | [], _ => []
  | c :: cs, cid => if c.id == cid then cs else removeCartRow cs cid |> (c :: ·)

/-- Effect of `session.delete` on a review fetched by primary key. -/
def removeReviewRow : List Review → Nat → List Review
  | [], _ => []
  | r :: rs, rid => if r.id == rid then rs else removeReviewRow rs rid |> (r :: ·)

/-- Validation enforced by Pydantic on `CartItemBase.quantity`
(models.py line 99, `ge=1`). -/
def cartItemCreateValid (c : CartItemCreate) : Bool :=
  1 ≤ c.quantity

/-- Query `select(CartItem).where(user_id == uid)`: the cart rows of the
given user. -/
def cartOf (db : DB) (uid : Nat) : List CartItem :=
  db.cartItems.filter (fun c => c.user_id == uid)

/-- Handler `add_to_cart` (routers_cart.py lines 70-119): the product
must exist, be `in_stock`, and have enough stock for the requested
quantity; if a row for (user, product) already exists the quantities are
merged after a second stock check, otherwise a new row is inserted. -/
def add_to_cart (db : DB) (uid : Nat) (item_in : CartItemCreate) :
    Except ApiError CartItem × DB :=
  match findProduct db item_in.product_id with
  | none => (.error (.notFound "Product"), db)
  | some prod =>
    if prod.in_stock = false then (.error .outOfStock, db)
    else if prod.stock_quantity < item_in.quantity then
      (.error (.onlyInStock prod.stock_quantity), db)
    else
      match db.cartItems.find?
          (fun c => c.user_id == uid && c.product_id == item_in.product_id) with
      | some existing =>
        let new_qty := existing.quantity + item_in.quantity
        if prod.stock_quantity < new_qty then
          (.error (.cannotAddExceedsStock item_in.quantity existing.quantity
              prod.stock_quantity), db)
        else
          let merged := { existing with quantity := new_qty }
          (.ok merged, replaceCartItem db merged)
      | none =>
        let new_item : CartItem :=
          { id := db.nextCartItemId, user_id := uid,
            product_id := item_in.product_id, quantity := item_in.quantity }
        (.ok new_item,
          { db with cartItems := db.cartItems ++ [new_item],
                    nextCartItemId := db.nextCartItemId + 1 })

/-- Route POST /cart/ as observed on the wire: FastAPI validates the
`CartItemCreate` body (`quantity ≥ 1`) before the handler runs. -/
def add_to_cart_route (db : DB) (uid : Nat) (item_in : CartItemCreate) :
    Except ApiError CartItem × DB :=
  if cartItemCreateValid item_in then add_to_cart db uid item_in
  else (.error .validationError, db)

/-- Outcome of PUT /cart/: the handler may answer with the updated row,
with the bare 204 signal `raise HTTPException(status_code=204)` — a
success-class status marking the row as removed — or with an error. -/
inductive UpdateOutcome where
  | ok (item : CartItem)
  | removed
  | err (e : ApiError)
  deriving Repr, DecidableEq

/-- Handler `update_cart_item` (routers_cart.py lines 122-154): 404
unless the row exists and belongs to the caller; a quantity of at most 0
deletes the row (committed) and signals 204; otherwise the new quantity
is validated against current stock and overwritten. -/
def update_cart_item (db : DB) (uid : Nat) (item_id : Nat)
    (item_in : CartItemCreate) : UpdateOutcome × DB :=
  match findCartItem db item_id with
  | none => (.err (.notFound "Cart item"), db)
  | some existing =>
    if existing.user_id ≠ uid then (.err (.notFound "Cart item"), db)
    else if item_in.quantity ≤ 0 then
      (.removed, { db with cartItems := removeCartRow db.cartItems existing.id })
    else
      match findProduct db existing.product_id with
      | none => (.err (.notFound "Product associated with cart item"), db)
      | some prod =>
        if prod.stock_quantity < item_in.quantity then
          (.err (.cannotUpdateExceedsStock item_in.quantity prod.stock_quantity), db)
        else
          let updated := { existing with quantity := item_in.quantity }
          (.ok updated, replaceCartItem db updated)

/-- Route PUT /cart/ as observed on the wire: the `CartItemCreate` body
is validated (`quantity ≥ 1`) before the handler runs, so the handler
branch for a quantity of at most 0 is unreachable over HTTP. -/
def update_cart_item_route (db : DB) (uid : Nat) (item_id : Nat)
    (item_in : CartItemCreate) : UpdateOutcome × DB :=
  if cartItemCreateValid item_in then update_cart_item db uid item_id item_in
  else (.err .validationError, db)

/-- Handler `delete_cart_item` (routers_cart.py lines 157-168): 404
unless the row exists and belongs to the caller, else delete it. -/
def delete_cart_item (db : DB) (uid : Nat) (item_id : Nat) :
    Except ApiError Unit × DB :=
  match findCartItem db item_id with
  | none => (.error (.notFound "Cart item"), db)
  | some existing =>
    if existing.user_id ≠ uid then (.error (.notFound "Cart item"), db)
    else (.ok (), { db with cartItems := removeCartRow db.cartItems existing.id })

/-- Handler `clear_cart` (routers_cart.py lines 171-182): delete every
cart row of the caller. -/
def clear_cart (db : DB) (uid : Nat) : Except ApiError Unit × DB :=
  (.ok (), { db with cartItems := db.cartItems.filter (fun c => !(c.user_id == uid)) })

/-- Stock deduction of routers_orders.py lines 123-125: subtract the
purchased quantity and drop the `in_stock` flag when the stock reaches
exactly zero. -/
def decrementProduct (p : Product) (q : Int) : Product :=
  { p with stock_quantity := p.stock_quantity - q,
           in_stock := if p.stock_quantity - q = 0 then false else p.in_stock }

/-- Loop body of `create_order` (routers_orders.py lines 109-136),
running over the cart rows with the working (uncommitted) session state:
a row whose product no longer exists is dropped, a row whose product
lacks stock aborts the whole request, and otherwise the stock is
deducted, an order item recorded with a price snapshot, the total
accumulated, and the cart row deleted. -/
def checkoutLoop (oid : Nat) :
    List CartItem → DB → Rat → Except ApiError (DB × Rat)
  | [], db, total => .ok (db, total)
  | ci :: rest, db, total =>
    match findProduct db ci.product_id with
    | none =>
      checkoutLoop oid rest
        { db with cartItems := removeCartRow db.cartItems ci.id } total
    | some prod =>
      if prod.stock_quantity < ci.quantity then
        .error (.insufficientStockFor prod.name prod.stock_quantity ci.quantity)
      else
        let db2 := replaceProduct db (decrementProduct prod ci.quantity)
        let oi : OrderItem :=
          { id := db2.nextOrderItemId, order_id := oid,
            product_id := prod.id, quantity := ci.quantity, price := prod.price }
        let db3 := { db2 with orderItems := db2.orderItems ++ [oi],
                              nextOrderItemId := db2.nextOrderItemId + 1 }
        let db4 := { db3 with cartItems := removeCartRow db3.cartItems ci.id }
        checkoutLoop oid rest db4 (total + prod.price * (ci.quantity : Rat))

/-- Order shell created by routers_orders.py lines 100-103:
`models.Order(user_id=..., shipping_address=...)` with the model
defaults `status="pending"` and `total=0.0`, given its id at commit. -/
def pendingOrder (db : DB) (uid : Nat) (shipping : Option String) : Order :=
  { id := db.nextOrderId, user_id := uid, shipping_address := shipping }

/-- Handler `create_order` (routers_orders.py lines 78-143): checkout.
The order shell is committed (line 105) before the loop runs, so on a
mid-loop abort the persisted state is the shell commit; the loop
mutations only persist at the final commit (line 140). -/
def create_order (db : DB) (uid : Nat) (shipping : Option String) :
    Except ApiError Order × DB :=
  let cart_items := cartOf db uid
  if cart_items.isEmpty then (.error .emptyCart, db)
  else
    let order := pendingOrder db uid shipping
    let db1 := { db with orders := db.orders ++ [order],
                         nextOrderId := db.nextOrderId + 1 }
    match checkoutLoop order.id cart_items db1 0 with
    | .error e => (.error e, db1)
    | .ok (db2, total) =>
      let finished := { order with total := total }
      (.ok finished, replaceOrder db2 finished)

/-- Query `select(Review).where(product_id == pid)`: all reviews of one
product. -/
def reviewsFor (db : DB) (pid : Nat) : List Review :=
  db.reviews.filter (fun r => r.product_id == pid)

/-- Handler `create_review` (routers_reviews.py lines 70-111): 404 if
the product is missing; otherwise the review is inserted and committed,
then `Product.rating` and `Product.review_count` are recomputed from the
full review set of that product and committed. -/
def create_review (db : DB) (uid : Nat) (product_id : Nat) (rating : Int)
    (comment : Option String) : Except ApiError Review × DB :=
  match findProduct db product_id with
  | none => (.error (.notFound "Product"), db)
  | some product =>
    let review : Review :=
      { id := db.nextReviewId, user_id := uid, product_id := product_id,
        rating := rating, comment := comment }
    let db1 := { db with reviews := db.reviews ++ [review],
                         nextReviewId := db.nextReviewId + 1 }
    let all_reviews := reviewsFor db1 product_id
    let total_rating : Int := (all_reviews.map (fun r => r.rating)).sum
    let count := all_reviews.length
    let product2 :=
      { product with
          rating := if 0 < count then (total_rating : Rat) / (count : Rat) else 0,
          review_count := count }
    (.ok review, replaceProduct db1 product2)

/-- Handler `delete_review` (routers_reviews.py lines 114-143): 404 if
the review is missing, 403 unless the caller is the author or an admin;
the review is deleted and committed, then the product aggregates are
recomputed from the remaining reviews (skipped when the product itself
no longer exists). -/
def delete_review (db : DB) (caller : User) (review_id : Nat) :
    Except ApiError Unit × DB :=
  match findReview db review_id with
  | none => (.error (.notFound "Review"), db)
  | some review =>
    if review.user_id ≠ caller.id ∧ caller.is_admin = false then
      (.error (.forbidden "Not authorized to delete this review"), db)
    else
      let product_id := review.product_id
      let db1 := { db with reviews := removeReviewRow db.reviews review.id }
      match findProduct db1 product_id with
      | none => (.ok (), db1)
      | some product =>
        let remaining := reviewsFor db1 product_id
        let total_rating : Int := (remaining.map (fun r => r.rating)).sum
        let count := remaining.length
        let product2 :=
          { product with
              rating := if 0 < count then (total_rating : Rat) / (count : Rat) else 0,
              review_count := count }
        (.ok (), replaceProduct db1 product2)

/-- Stand-in for the external passlib bcrypt hasher (an excluded
collaborator per spec section 1): only the fact that some digest string
is stored matters to the properties proved here. -/
def get_password_hash (password : String) : String :=
  "bcrypt_sha256$" ++ password

/-- Handler `register` (auth.py lines 139-163): 400 "An account with
this email already exists" when a user with the email is found;
otherwise the user row is stored with the hashed password and committed.
The JWT issued by the real handler comes from an excluded external
codec and does not touch the store, so the modelled handler returns the
created user instead. -/
def register (db : DB) (email password : String)
    (full_name phone : Option String) : Except ApiError User × DB :=
  match db.users.find? (fun u => u.email == email) with
  | some _ => (.error .duplicateEmail, db)
  | none =>
    let db_user : User :=
      { id := db.nextUserId, email := email,
        hashed_password := get_password_hash password,
        full_name := full_name, phone := phone }
    (.ok db_user, { db with users := db.users ++ [db_user],
                            nextUserId := db.nextUserId + 1 })

/-- One modelled API request, used to reason about arbitrary request
sequences between two points in time. -/
inductive Op where
  | opRegister (email password : String) (full_name phone : Option String)
  | opAddToCart (uid : Nat) (item_in : CartItemCreate)
  | opUpdateCartItem (uid item_id : Nat) (item_in : CartItemCreate)
  | opDeleteCartItem (uid item_id : Nat)
  | opClearCart (uid : Nat)
  | opCreateOrder (uid : Nat) (shipping : Option String)
  | opCreateReview (uid product_id : Nat) (rating : Int) (comment : Option String)
  | opDeleteReview (caller : User) (review_id : Nat)
  deriving Repr

/-- State effect of one modelled request. -/
def applyOp (db : DB) : Op → DB
  | .opRegister e p f ph => (register db e p f ph).2
  | .opAddToCart u c => (add_to_cart_route db u c).2
  | .opUpdateCartItem u i c => (update_cart_item_route db u i c).2
  | .opDeleteCartItem u i => (delete_cart_item db u i).2
  | .opClearCart u => (clear_cart db u).2
  | .opCreateOrder u s => (create_order db u s).2
  | .opCreateReview u p r c => (create_review db u p r c).2
  | .opDeleteReview u r => (delete_review db u r).2

/-- State effect of a sequence of modelled requests. -/
def applyOps (db : DB) (ops : List Op) : DB :=
  ops.foldl applyOp db

/-- Folding `session.delete` over a list of cart-row ids, as the
checkout loop does one row at a time. -/
def removeAllCart (l : List CartItem) (ids : List Nat) : List CartItem :=
  ids.foldl removeCartRow l

/-- Price of a product as looked up at checkout time (0 if missing —
never hit under the hypotheses it is used with). -/
def priceOf (db : DB) (pid : Nat) : Rat :=
  ((findProduct db pid).map (fun p => p.price)).getD 0

/-- Value of a list of cart rows: the sum over rows of price at lookup
time multiplied by quantity.  This is the total the spec promises for
checkout. -/
def loopTotal (db : DB) (items : List CartItem) : Rat :=
  (items.map (fun ci => priceOf db ci.product_id * (ci.quantity : Rat))).sum

/-- Arithmetic mean of the ratings of a review set, 0 when the set is
empty — the aggregate the spec promises for `Product.rating`. -/
def meanRating (rs : List Review) : Rat :=
  if rs.length = 0 then 0
  else (rs.map (fun r => (r.rating : Rat))).sum / (rs.length : Rat)

/-- Aggregate consistency for one product: its cached `review_count` is
the number of its reviews and its cached `rating` their arithmetic
mean. -/
def aggOk (db : DB) (pid : Nat) : Prop :=
  ∀ p, findProduct db pid = some p →
    p.review_count = (reviewsFor db pid).length ∧
    p.rating = meanRating (reviewsFor db pid)

/-- Concrete store for the spec example behind C1: one user, one
product priced 100 with stock 10, one cart row of quantity 3. -/
def dbRing : DB :=
  { users := [{ id := 1, email := "a@example.com", hashed_password := "h" }],
    products := [{ id := 1, name := "Ring", price := 100, stock_quantity := 10 }],
    cartItems := [{ id := 1, user_id := 1, product_id := 1, quantity := 3 }],
    nextUserId := 2, nextProductId := 2, nextCartItemId := 2 }

/-- Concrete store exercising a mid-loop checkout abort: the first cart
row (product 1, stock 10, quantity 3) passes, the second (product 2,
stock 1, quantity 5) oversells. -/
def dbAbort : DB :=
  { users := [{ id := 1, email := "a@example.com", hashed_password := "h" }],
    products := [{ id := 1, name := "Ring", price := 100, stock_quantity := 10 },
                 { id := 2, name := "Bracelet", price := 50, stock_quantity := 1 }],
    cartItems := [{ id := 1, user_id := 1, product_id := 1, quantity := 3 },
                  { id := 2, user_id := 1, product_id := 2, quantity := 5 }],
    nextUserId := 2, nextProductId := 3, nextCartItemId := 3 }

/-- Concrete store with a product whose `stock_quantity` is 5 but whose
`in_stock` flag is false — the consistency gap spec section 3 allows. -/
def dbFlagged : DB :=
  { users := [{ id := 1, email := "a@example.com", hashed_password := "h" }],
    products := [{ id := 1, name := "Ring", price := 100,
                   in_stock := false, stock_quantity := 5 }],
    nextUserId := 2, nextProductId := 2 }

/-- Concrete store with an in-stock product of stock 5 and an empty
cart, for the upsert scenario. -/
def dbUpsert : DB :=
  { users := [{ id := 1, email := "a@example.com", hashed_password := "h" }],
    products := [{ id := 1, name := "Ring", price := 100, stock_quantity := 5 }],
    nextUserId := 2, nextProductId := 2 }

/-- Concrete store with one owned cart row of quantity 2, for the
set-quantity scenarios. -/
def dbOwned : DB :=
  { users := [{ id := 1, email := "a@example.com", hashed_password := "h" }],
    products := [{ id := 1, name := "Ring", price := 100, stock_quantity := 9 }],
    cartItems := [{ id := 1, user_id := 1, product_id := 1, quantity := 2 }],
    nextUserId := 2, nextProductId := 2, nextCartItemId := 2 }

/-- Concrete store with cart rows of two different users, for the
deletion-scoping scenarios. -/
def dbTwoUsers : DB :=
  { users := [{ id := 1, email := "a@example.com", hashed_password := "h" },
              { id := 2, email := "b@example.com", hashed_password := "h" }],
    products := [{ id := 1, name := "Ring", price := 100, stock_quantity := 9 }],
    cartItems := [{ id := 1, user_id := 1, product_id := 1, quantity := 2 },
                  { id := 2, user_id := 2, product_id := 1, quantity := 3 }],
    nextUserId := 3, nextProductId := 2, nextCartItemId := 3 }

/-- Concrete store with one product and no reviews, for the review
aggregation scenario. -/
def dbNoReviews : DB :=
  { users := [{ id := 1, email := "a@example.com", hashed_password := "h" }],
    products := [{ id := 1, name := "Ring", price := 100, stock_quantity := 9 }],
    nextUserId := 2, nextProductId := 2 }

/-- Concrete empty store, for the registration scenario. -/
def dbEmpty : DB := {}

/-- Persisted state right after the shell commit of `create_order`
(routers_orders.py line 105): the pending order appended, nothing else
touched.  On a mid-loop abort this is the state the request leaves
behind. -/
def shellDB (db : DB) (uid : Nat) (ship : Option String) : DB :=
  { db with orders := db.orders ++ [pendingOrder db uid ship]
            nextOrderId := db.nextOrderId + 1 }

/-- Working session state after one successful iteration of the
checkout loop over cart row `ci` with fetched product `prod`: stock
deducted, order item appended, cart row deleted. -/
def stepDB (oid : Nat) (db : DB) (ci : CartItem) (prod : Product) : DB :=
  let db2 := replaceProduct db (decrementProduct prod ci.quantity)
  let oi : OrderItem :=
    { id := db2.nextOrderItemId, order_id := oid,
      product_id := prod.id, quantity := ci.quantity, price := prod.price }
  let db3 := { db2 with orderItems := db2.orderItems ++ [oi],
                        nextOrderItemId := db2.nextOrderItemId + 1 }
  { db3 with cartItems := removeCartRow db3.cartItems ci.id }

/-! ### Helper lemmas about the list primitives -/

theorem find?_cons_eq {α : Type} (p : α → Bool) (a : α) (l : List α) :
    (a :: l).find? p = if p a then some a else l.find? p := by
  cases h : p a
  · rw [List.find?_cons_of_neg _ (by simp [h])]
    simp [h]
  · rw [List.find?_cons_of_pos _ h]
    simp [h]

theorem findP_map_ne (l : List Product) (p : Product) (pid : Nat)
    (h : ¬ p.id = pid) :
    (l.map fun q => if q.id == p.id then p else q).find? (fun q => q.id == pid)
      = l.find? (fun q => q.id == pid) := by
  induction l with
  | nil => rfl
  | cons q l ih =>
    rw [List.map_cons]
    by_cases hq : q.id = p.id
    · rw [if_pos (by simpa using hq), find?_cons_eq, find?_cons_eq,
        if_neg (by simpa using h),
        if_neg (by simp only [beq_iff_eq, hq]; exact h)]
      exact ih
    · rw [if_neg (by simpa using hq), find?_cons_eq, find?_cons_eq]
      by_cases hqpid : q.id = pid
      · rw [if_pos (by simpa using hqpid), if_pos (by simpa using hqpid)]
      · rw [if_neg (by simpa using hqpid), if_neg (by simpa using hqpid)]
        exact ih

theorem findP_map_self (l : List Product) (p p0 : Product) (pid : Nat)
    (h : l.find? (fun q => q.id == pid) = some p0) (hp : p.id = pid) :
    (l.map fun q => if q.id == p.id then p else q).find? (fun q => q.id == pid)
      = some p := by
  induction l with
  | nil => simp [List.find?] at h
  | cons q l ih =>
    rw [find?_cons_eq] at h
    rw [List.map_cons]
    by_cases hq : q.id = p.id
    · rw [if_pos (by simpa using hq), find?_cons_eq, if_pos (by simpa using hp)]
    · rw [if_neg (by simpa using hq), find?_cons_eq]
      by_cases hqpid : q.id = pid
      · exact absurd (hqpid.trans hp.symm) hq
      · rw [if_neg (by simpa using hqpid)] at h
        rw [if_neg (by simpa using hqpid)]
        exact ih h

theorem mapId_replace (l : List Product) (p : Product) :
    (l.map fun q => if q.id == p.id then p else q).map (fun q => q.id)
      = l.map (fun q => q.id) := by
  induction l with
  | nil => rfl
  | cons q l ih =>
    rw [List.map_cons]
    by_cases hq : q.id = p.id
    · rw [if_pos (by simpa using hq), List.map_cons, List.map_cons, ih, ← hq]
    · rw [if_neg (by simpa using hq), List.map_cons, List.map_cons, ih]

theorem removeCartRow_eq_of_forall_ne (l : List CartItem) (cid : Nat)
    (h : ∀ x ∈ l, ¬ x.id = cid) : removeCartRow l cid = l := by
  induction l with
  | nil => rfl
  | cons c cs ih =>
    rw [removeCartRow, if_neg (by simpa using h c (by simp))]
    simp only [List.cons.injEq, true_and]
    exact ih fun x hx => h x (by simp [hx])

theorem removeCartRow_eq_filter (l : List CartItem) (cid : Nat)
    (h : (l.map (fun c => c.id)).Nodup) :
    removeCartRow l cid = l.filter (fun c => !(c.id == cid)) := by
  induction l with
  | nil => rfl
  | cons c cs ih =>
    rw [List.map_cons, List.nodup_cons] at h
    rw [removeCartRow, List.filter_cons]
    by_cases hc : c.id = cid
    · rw [if_pos (by simpa using hc), if_neg (by simp [hc])]
      refine (List.filter_eq_self.mpr ?_).symm
      intro x hx
      have hne : ¬ x.id = cid := fun hxe =>
        h.1 (by rw [hc, ← hxe]; exact List.mem_map_of_mem _ hx)
      simpa using hne
    · rw [if_neg (by simpa using hc), if_pos (by simpa using hc)]
      simp only [List.cons.injEq, true_and]
      exact ih h.2

theorem removeCartRow_filter_other (l : List CartItem) (cid other : Nat)
    (c : CartItem) (hf : l.find? (fun x => x.id == cid) = some c)
    (hu : ¬ c.user_id = other) :
    (removeCartRow l cid).filter (fun x => x.user_id == other)
      = l.filter (fun x => x.user_id == other) := by
  induction l with
  | nil => simp [List.find?] at hf
  | cons x xs ih =>
    rw [find?_cons_eq] at hf
    rw [removeCartRow]
    by_cases hx : x.id = cid
    · rw [if_pos (by simpa using hx)] at hf ⊢
      have hxc : x = c := by simpa using hf
      rw [List.filter_cons, if_neg (by simp [hxc]; exact hu)]
    · rw [if_neg (by simpa using hx)] at hf ⊢
      rw [List.filter_cons, List.filter_cons]
      by_cases hxu : x.user_id = other
      · rw [if_pos (by simpa using hxu), if_pos (by simpa using hxu), ih hf]
      · rw [if_neg (by simpa using hxu), if_neg (by simpa using hxu), ih hf]

theorem removeAllCart_user_empty (ids : List Nat) (l : List CartItem) (uid : Nat)
    (hnd : (l.map (fun c => c.id)).Nodup)
    (hall : ∀ x ∈ l, x.user_id = uid → x.id ∈ ids) :
    (removeAllCart l ids).filter (fun c => c.user_id == uid) = [] := by
  induction ids generalizing l with
  | nil =>
    rw [removeAllCart, List.foldl_nil, List.filter_eq_nil_iff]
    intro x hx
    simpa using fun hxe => by simpa using hall x hx hxe
  | cons i ids ih =>
    rw [removeAllCart, List.foldl_cons]
    rw [removeCartRow_eq_filter l i hnd]
    refine ih (l.filter (fun c => !(c.id == i))) ?_ ?_
    · exact ((List.filter_sublist l).map (fun c => c.id)).nodup hnd
    · intro x hx hxu
      rw [List.mem_filter] at hx
      have hxi : ¬ x.id = i := by simpa using hx.2
      have := hall x hx.1 hxu
      simp only [List.mem_cons] at this
      exact this.resolve_left hxi

/-- C5: addItem fails with NotFound when the product does not exist,
with OutOfStock when its `in_stock` flag is false, and with
InsufficientStock when the requested quantity — or, if the product is
already in the cart of the caller, the merged total of existing plus
requested quantity — exceeds `stock_quantity`; in all three failure
cases the store is unchanged, so no cart row is created or modified. -/
theorem addItem_failure_cases : ∀ (db : DB) (uid : Nat) (item_in : CartItemCreate),
    (findProduct db item_in.product_id = none →
      add_to_cart db uid item_in = (.error (.notFound "Product"), db)) ∧
    (∀ p, findProduct db item_in.product_id = some p → p.in_stock = false →
      add_to_cart db uid item_in = (.error .outOfStock, db)) ∧
    (∀ p, findProduct db item_in.product_id = some p → p.in_stock = true →
      p.stock_quantity < item_in.quantity →
      add_to_cart db uid item_in = (.error (.onlyInStock p.stock_quantity), db)) ∧
    (∀ p existing, findProduct db item_in.product_id = some p → p.in_stock = true →
      item_in.quantity ≤ p.stock_quantity →
      db.cartItems.find? (fun c => c.user_id == uid && c.product_id == item_in.product_id)
        = some existing →
      p.stock_quantity < existing.quantity + item_in.quantity →
      add_to_cart db uid item_in =
        (.error (.cannotAddExceedsStock item_in.quantity existing.quantity
          p.stock_quantity), db)) := by
  intro db uid item_in
  refine ⟨?_, ?_, ?_, ?_⟩
  · intro h
    simp [add_to_cart, h]
  · intro p hp hs
    simp [add_to_cart, hp, hs]
  · intro p hp hs hlt
    simp [add_to_cart, hp, hs, hlt]
  · intro p existing hp hs hle hfind hover
    simp [add_to_cart, hp, hs, not_lt.mpr hle, hfind, hover]

theorem addItem_failure_cases_witness :
    add_to_cart dbUpsert 1 ⟨99, 1⟩ = (.error (.notFound "Product"), dbUpsert) ∧
    add_to_cart dbFlagged 1 ⟨1, 1⟩ = (.error .outOfStock, dbFlagged) ∧
    add_to_cart dbUpsert 1 ⟨1, 6⟩ = (.error (.onlyInStock 5), dbUpsert) ∧
    add_to_cart dbOwned 1 ⟨1, 8⟩
      = (.error (.cannotAddExceedsStock 8 2 9), dbOwned) := by
  refine ⟨?_, ?_, ?_, ?_⟩
  · exact (addItem_failure_cases dbUpsert 1 ⟨99, 1⟩).1 (by decide)
  · exact (addItem_failure_cases dbFlagged 1 ⟨1, 1⟩).2.1
      { id := 1, name := "Ring", price := 100, in_stock := false, stock_quantity := 5 }
      (by decide) (by decide)
  · exact (addItem_failure_cases dbUpsert 1 ⟨1, 6⟩).2.2.1
      { id := 1, name := "Ring", price := 100, stock_quantity := 5 }
      (by decide) (by decide) (by decide)
  · exact (addItem_failure_cases dbOwned 1 ⟨1, 8⟩).2.2.2
      { id := 1, name := "Ring", price := 100, stock_quantity := 9 }
      { id := 1, user_id := 1, product_id := 1, quantity := 2 }
      (by decide) (by decide) (by decide) (by decide) (by decide)

/-- C8: removeItem and clear delete only rows belonging to the calling
user — the cart rows of every other user are unchanged by either
operation — and removeItem on a row owned by a different user fails with
NotFound and deletes nothing. -/
theorem cartDeletion_scoped : ∀ (db : DB) (caller item_id other : Nat),
    ¬ other = caller →
    ((delete_cart_item db caller item_id).2.cartItems.filter
        (fun c => c.user_id == other)
      = db.cartItems.filter (fun c => c.user_id == other)) ∧
    ((clear_cart db caller).2.cartItems.filter (fun c => c.user_id == other)
      = db.cartItems.filter (fun c => c.user_id == other)) ∧
    (∀ item, findCartItem db item_id = some item → ¬ item.user_id = caller →
      delete_cart_item db caller item_id = (.error (.notFound "Cart item"), db)) := by
  intro db caller item_id other hne
  refine ⟨?_, ?_, ?_⟩
  · unfold delete_cart_item
    cases hf : findCartItem db item_id with
    | none => rfl
    | some existing =>
      dsimp only
      by_cases hu : existing.user_id = caller
      · rw [if_neg (fun hcon => hcon hu)]
        have hid : existing.id = item_id := by
          simpa using List.find?_some hf
        show (removeCartRow db.cartItems existing.id).filter
            (fun c => c.user_id == other) = _
        rw [hid]
        exact removeCartRow_filter_other db.cartItems item_id other existing hf
          (fun hx => hne (by rw [← hx]; exact hu))
      · rw [if_pos hu]
  · show (db.cartItems.filter (fun c => !(c.user_id == caller))).filter
        (fun c => c.user_id == other) = _
    rw [List.filter_filter]
    apply List.filter_congr
    intro x hx
    by_cases hxo : x.user_id = other
    · simp [hxo, hne]
    · simp [hxo]
  · intro item hf hnu
    simp [delete_cart_item, hf, hnu]

theorem cartDeletion_scoped_witness :
    ((delete_cart_item dbTwoUsers 1 1).2.cartItems.filter (fun c => c.user_id == 2)
      = dbTwoUsers.cartItems.filter (fun c => c.user_id == 2)) ∧
    ((clear_cart dbTwoUsers 1).2.cartItems.filter (fun c => c.user_id == 2)
      = dbTwoUsers.cartItems.filter (fun c => c.user_id == 2)) ∧
    delete_cart_item dbTwoUsers 1 2 = (.error (.notFound "Cart item"), dbTwoUsers) := by
  obtain ⟨h1, h2, _⟩ := cartDeletion_scoped dbTwoUsers 1 1 2 (by decide)
  refine ⟨h1, h2, ?_⟩
  exact (cartDeletion_scoped dbTwoUsers 1 2 2 (by decide)).2.2
    { id := 2, user_id := 2, product_id := 1, quantity := 3 } (by decide) (by decide)

/-- C4: over HTTP, setQuantity with quantity 0 on an owned cart row is
rejected by the Pydantic `ge=1` schema validation with status 422 and
deletes nothing, although the handler body — and its own docstring "Use
quantity=0 to remove it" — would delete the row and signal the
success-class 204 removal outcome if it were reachable. -/
theorem setQuantity_zero_rejected_by_schema :
    update_cart_item_route dbOwned 1 1 ⟨1, 0⟩ = (.err .validationError, dbOwned) ∧
    update_cart_item dbOwned 1 1 ⟨1, 0⟩
      = (.removed, { dbOwned with cartItems := [] }) := by
  constructor
  · decide
  · decide

theorem find?_append_of_none {α : Type} (p : α → Bool) (l₁ l₂ : List α)
    (h : l₁.find? p = none) : (l₁ ++ l₂).find? p = l₂.find? p := by
  induction l₁ with
  | nil => rfl
  | cons a l ih =>
    rw [find?_cons_eq] at h
    cases hpa : p a
    · rw [if_neg (by simp [hpa])] at h
      rw [List.cons_append, find?_cons_eq, if_neg (by simp [hpa])]
      exact ih h
    · rw [if_pos hpa] at h
      exact absurd h (by simp)

/-- C3 (counterexample): for a product with `stock_quantity = 5` but
`in_stock = false` that is not in the cart of the user, adding
quantity 3 fails with OutOfStock, so the two adds do not leave one cart
row of quantity 5 — the claim omits the `in_stock` requirement. -/
theorem upsert_claim_fails_without_flag :
    (add_to_cart dbFlagged 1 ⟨1, 3⟩).1 = .error .outOfStock ∧
    (((add_to_cart (add_to_cart dbFlagged 1 ⟨1, 3⟩).2 1 ⟨1, 2⟩).2).cartItems.filter
        (fun c => c.user_id == 1 && c.product_id == 1)).map (fun c => c.quantity)
      ≠ [5] := by
  constructor
  · decide
  · decide

theorem add_to_cart_inserts (db : DB) (uid : Nat) (item_in : CartItemCreate)
    (p : Product) (hp : findProduct db item_in.product_id = some p)
    (hs : p.in_stock = true) (hq : ¬ p.stock_quantity < item_in.quantity)
    (hnone : db.cartItems.find?
      (fun c => c.user_id == uid && c.product_id == item_in.product_id) = none) :
    add_to_cart db uid item_in =
      (.ok { id := db.nextCartItemId, user_id := uid,
             product_id := item_in.product_id, quantity := item_in.quantity },
       { db with
          cartItems := db.cartItems ++
            [{ id := db.nextCartItemId, user_id := uid,
               product_id := item_in.product_id, quantity := item_in.quantity }]
          nextCartItemId := db.nextCartItemId + 1 }) := by
  simp [add_to_cart, hp, hs, hq, hnone]

theorem add_to_cart_merges (db : DB) (uid : Nat) (item_in : CartItemCreate)
    (p : Product) (existing : CartItem)
    (hp : findProduct db item_in.product_id = some p) (hs : p.in_stock = true)
    (hq : ¬ p.stock_quantity < item_in.quantity)
    (hfind : db.cartItems.find?
      (fun c => c.user_id == uid && c.product_id == item_in.product_id) = some existing)
    (hover : ¬ p.stock_quantity < existing.quantity + item_in.quantity) :
    add_to_cart db uid item_in =
      (.ok { existing with quantity := existing.quantity + item_in.quantity },
       replaceCartItem db { existing with
         quantity := existing.quantity + item_in.quantity }) := by
  simp [add_to_cart, hp, hs, hq, hfind, hover]

/-- C3 (amended): addItem has upsert semantics: for every user and
every product that is in stock (`in_stock = true`) with
`stock_quantity ≥ 5` and not yet in the cart of that user, adding
quantity 3 and then quantity 2 of the same product yields exactly one
cart row for that (user, product) pair, of quantity 5.  (The freshness
hypothesis on `nextCartItemId` is the auto-increment invariant of the
primary key.) -/
theorem addItem_upsert_semantics : ∀ (db : DB) (uid pid : Nat) (p : Product),
    findProduct db pid = some p → p.in_stock = true → 5 ≤ p.stock_quantity →
    db.cartItems.filter (fun c => c.user_id == uid && c.product_id == pid) = [] →
    (∀ c ∈ db.cartItems, c.id < db.nextCartItemId) →
    (((add_to_cart (add_to_cart db uid ⟨pid, 3⟩).2 uid ⟨pid, 2⟩).2).cartItems.filter
        (fun c => c.user_id == uid && c.product_id == pid)).map (fun c => c.quantity)
      = [5] := by
  intro db uid pid p hp hs h5 hempty hfresh
  have hnf : db.cartItems.find? (fun c => c.user_id == uid && c.product_id == pid)
      = none := by
    rw [List.find?_eq_none]
    intro x hx
    simpa using List.filter_eq_nil_iff.mp hempty x hx
  have h3 : ¬ p.stock_quantity < 3 := not_lt.mpr (le_trans (by norm_num) h5)
  have h2 : ¬ p.stock_quantity < 2 := not_lt.mpr (le_trans (by norm_num) h5)
  have hfindA : (db.cartItems ++
        [({ id := db.nextCartItemId, user_id := uid, product_id := pid,
            quantity := 3 } : CartItem)]).find?
        (fun c => c.user_id == uid && c.product_id == pid)
      = some { id := db.nextCartItemId, user_id := uid, product_id := pid,
               quantity := 3 } := by
    rw [find?_append_of_none _ _ _ hnf, find?_cons_eq, if_pos (by simp)]
  have hover : ¬ p.stock_quantity < 3 + 2 := by
    rw [show (3 : Int) + 2 = 5 by norm_num]
    exact not_lt.mpr h5
  rw [add_to_cart_inserts db uid ⟨pid, 3⟩ p hp hs h3 hnf]
  dsimp only
  rw [add_to_cart_merges
      { db with
          cartItems := db.cartItems ++
            [{ id := db.nextCartItemId, user_id := uid,
               product_id := pid, quantity := 3 }]
          nextCartItemId := db.nextCartItemId + 1 }
      uid ⟨pid, 2⟩ p
      { id := db.nextCartItemId, user_id := uid, product_id := pid, quantity := 3 }
      hp hs h2 hfindA hover]
  show ((((db.cartItems ++
      [({ id := db.nextCartItemId, user_id := uid, product_id := pid,
          quantity := 3 } : CartItem)]).map (fun d =>
        if d.id == db.nextCartItemId
        then ({ id := db.nextCartItemId, user_id := uid, product_id := pid,
                quantity := 3 + 2 } : CartItem)
        else d)).filter
      (fun c => c.user_id == uid && c.product_id == pid)).map (fun c => c.quantity))
    = [5]
  have hleft : ((db.cartItems.map (fun d =>
      if d.id == db.nextCartItemId
      then ({ id := db.nextCartItemId, user_id := uid, product_id := pid,
              quantity := 3 + 2 } : CartItem)
      else d)).filter (fun c => c.user_id == uid && c.product_id == pid)) = [] := by
    rw [List.filter_eq_nil_iff]
    intro x hx
    rw [List.mem_map] at hx
    obtain ⟨c, hc, hfc⟩ := hx
    rw [if_neg (by simpa using Nat.ne_of_lt (hfresh c hc))] at hfc
    rw [← hfc]
    simpa using List.filter_eq_nil_iff.mp hempty c hc
  rw [List.map_append, List.filter_append, hleft, List.nil_append]
  simp [show (3 : Int) + 2 = 5 by norm_num]


theorem addItem_upsert_semantics_witness :
    (((add_to_cart (add_to_cart dbUpsert 1 ⟨1, 3⟩).2 1 ⟨1, 2⟩).2).cartItems.filter
        (fun c => c.user_id == 1 && c.product_id == 1)).map (fun c => c.quantity)
      = [5] :=
  addItem_upsert_semantics dbUpsert 1 1
    { id := 1, name := "Ring", price := 100, stock_quantity := 5 }
    (by decide) (by decide) (by decide) (by decide) (by decide)

theorem checkoutLoop_users (oid : Nat) (items : List CartItem) (db : DB)
    (total : Rat) (db2 : DB) (t2 : Rat)
    (h : checkoutLoop oid items db total = .ok (db2, t2)) :
    db2.users = db.users := by
  induction items generalizing db total with
  | nil =>
    rw [checkoutLoop] at h
    simp only [Except.ok.injEq, Prod.mk.injEq] at h
    rw [← h.1]
  | cons ci rest ih =>
    rw [checkoutLoop] at h
    cases hf : findProduct db ci.product_id with
    | none =>
      simp only [hf] at h
      have hu := ih _ _ h
      exact hu
    | some prod =>
      simp only [hf] at h
      by_cases hlt : prod.stock_quantity < ci.quantity
      · rw [if_pos hlt] at h
        exact absurd h (by simp)
      · rw [if_neg hlt] at h
        have hu := ih _ _ h
        exact hu

theorem applyOp_users (db : DB) (op : Op) :
    (applyOp db op).users = db.users ∨
    ∃ u : User, (applyOp db op).users = db.users ++ [u] := by
  cases op with
  | opRegister e p f ph =>
    cases hf : db.users.find? (fun u => u.email == e) with
    | some u =>
      left
      show (register db e p f ph).2.users = db.users
      simp [register, hf]
    | none =>
      right
      refine ⟨{ id := db.nextUserId, email := e,
                hashed_password := get_password_hash p,
                full_name := f, phone := ph }, ?_⟩
      show (register db e p f ph).2.users = _
      simp [register, hf]
  | opAddToCart u c =>
    left
    show (add_to_cart_route db u c).2.users = db.users
    unfold add_to_cart_route add_to_cart
    dsimp only
    repeat' split
    all_goals rfl
  | opUpdateCartItem u i c =>
    left
    show (update_cart_item_route db u i c).2.users = db.users
    unfold update_cart_item_route update_cart_item
    dsimp only
    repeat' split
    all_goals rfl
  | opDeleteCartItem u i =>
    left
    show (delete_cart_item db u i).2.users = db.users
    unfold delete_cart_item
    repeat' split
    all_goals rfl
  | opClearCart u =>
    left
    rfl
  | opCreateOrder u s =>
    left
    show (create_order db u s).2.users = db.users
    unfold create_order
    dsimp only
    split
    · rfl
    · split
      · rfl
      · next db2 t2 heq =>
        have hu := checkoutLoop_users _ _ _ _ _ _ heq
        exact hu
  | opCreateReview u pid r c =>
    left
    show (create_review db u pid r c).2.users = db.users
    unfold create_review
    dsimp only
    repeat' split
    all_goals rfl
  | opDeleteReview u r =>
    left
    show (delete_review db u r).2.users = db.users
    unfold delete_review
    dsimp only
    repeat' split
    all_goals rfl

theorem applyOps_email_present (ops : List Op) (db : DB) (email : String)
    (h : ∃ w ∈ db.users, w.email = email) :
    ∃ w ∈ (applyOps db ops).users, w.email = email := by
  induction ops generalizing db with
  | nil => exact h
  | cons op ops ih =>
    have h1 : ∃ w ∈ (applyOp db op).users, w.email = email := by
      rcases applyOp_users db op with heq | ⟨u, heq⟩
      · rw [heq]
        exact h
      · obtain ⟨x, hx, he⟩ := h
        exact ⟨x, by rw [heq]; exact List.mem_append_left _ hx, he⟩
    exact ih (applyOp db op) h1

/-- C7: once a registration with an email has succeeded, every
subsequent registration attempt with the same email — after any
sequence of modelled requests in between — fails with DuplicateEmail
and leaves the store, in particular the user table, unchanged. -/
theorem register_duplicate_email : ∀ (db : DB) (email pw : String)
    (fn ph : Option String) (u : User) (db1 : DB),
    register db email pw fn ph = (.ok u, db1) →
    ∀ (ops : List Op) (pw2 : String) (fn2 ph2 : Option String),
    (register (applyOps db1 ops) email pw2 fn2 ph2).1 = .error .duplicateEmail ∧
    (register (applyOps db1 ops) email pw2 fn2 ph2).2 = applyOps db1 ops := by
  intro db email pw fn ph u db1 hreg ops pw2 fn2 ph2
  have hpres1 : ∃ w ∈ db1.users, w.email = email := by
    unfold register at hreg
    cases hf : db.users.find? (fun v => v.email == email) with
    | some w =>
      simp only [hf] at hreg
      exact absurd hreg (by simp)
    | none =>
      simp only [hf] at hreg
      have hdb : ({ db with
          users := db.users ++
            [{ id := db.nextUserId, email := email,
               hashed_password := get_password_hash pw,
               full_name := fn, phone := ph }]
          nextUserId := db.nextUserId + 1 } : DB) = db1 :=
        congrArg Prod.snd hreg
      refine ⟨{ id := db.nextUserId, email := email,
                hashed_password := get_password_hash pw,
                full_name := fn, phone := ph }, ?_, rfl⟩
      rw [← hdb]
      simp
  have hpres := applyOps_email_present ops db1 email hpres1
  obtain ⟨w, hw, hwe⟩ := hpres
  have hsome : ((applyOps db1 ops).users.find? (fun v => v.email == email)).isSome := by
    rw [List.find?_isSome]
    exact ⟨w, hw, by simpa using hwe⟩
  obtain ⟨v, hv⟩ := Option.isSome_iff_exists.mp hsome
  constructor
  · simp [register, hv]
  · simp [register, hv]

theorem register_duplicate_email_witness :
    (register (applyOps (register dbEmpty "a@b.com" "pw" none none).2 [])
        "a@b.com" "pw2" none none).1 = .error .duplicateEmail ∧
    (register (applyOps (register dbEmpty "a@b.com" "pw" none none).2 [])
        "a@b.com" "pw2" none none).2
      = applyOps (register dbEmpty "a@b.com" "pw" none none).2 [] :=
  register_duplicate_email dbEmpty "a@b.com" "pw" none none
    { id := 1, email := "a@b.com", hashed_password := get_password_hash "pw" }
    (register dbEmpty "a@b.com" "pw" none none).2 (by decide) [] "pw2" none none

theorem findProduct_replace_ne (db : DB) (p : Product) (pid : Nat)
    (h : ¬ p.id = pid) :
    findProduct (replaceProduct db p) pid = findProduct db pid :=
  findP_map_ne db.products p pid h

theorem findProduct_replace_self (db : DB) (p p0 : Product) (pid : Nat)
    (h : findProduct db pid = some p0) (hp : p.id = pid) :
    findProduct (replaceProduct db p) pid = some p :=
  findP_map_self db.products p p0 pid h hp

theorem checkoutLoop_cons_missing (oid : Nat) (ci : CartItem)
    (rest : List CartItem) (db : DB) (total : Rat)
    (hf : findProduct db ci.product_id = none) :
    checkoutLoop oid (ci :: rest) db total
      = checkoutLoop oid rest
          { db with cartItems := removeCartRow db.cartItems ci.id } total := by
  rw [checkoutLoop]
  simp only [hf]

theorem checkoutLoop_cons_abort (oid : Nat) (ci : CartItem)
    (rest : List CartItem) (db : DB) (total : Rat) (prod : Product)
    (hf : findProduct db ci.product_id = some prod)
    (hlt : prod.stock_quantity < ci.quantity) :
    checkoutLoop oid (ci :: rest) db total
      = .error (.insufficientStockFor prod.name prod.stock_quantity ci.quantity) := by
  rw [checkoutLoop]
  simp only [hf]
  rw [if_pos hlt]

theorem checkoutLoop_cons_step (oid : Nat) (ci : CartItem)
    (rest : List CartItem) (db : DB) (total : Rat) (prod : Product)
    (hf : findProduct db ci.product_id = some prod)
    (hlt : ¬ prod.stock_quantity < ci.quantity) :
    checkoutLoop oid (ci :: rest) db total
      = checkoutLoop oid rest (stepDB oid db ci prod)
          (total + prod.price * (ci.quantity : Rat)) := by
  rw [checkoutLoop]
  simp only [hf]
  rw [if_neg hlt]
  rfl

theorem findProduct_stepDB_ne (oid : Nat) (db : DB) (ci : CartItem)
    (prod : Product) (hprodid : prod.id = ci.product_id) (pid : Nat)
    (hne : ¬ pid = ci.product_id) :
    findProduct (stepDB oid db ci prod) pid = findProduct db pid := by
  have h2 : findProduct (replaceProduct db (decrementProduct prod ci.quantity)) pid
      = findProduct db pid := by
    apply findProduct_replace_ne
    intro he
    exact hne ((show prod.id = pid from he).symm.trans hprodid)
  exact h2

theorem create_order_of_empty (db : DB) (uid : Nat) (ship : Option String)
    (h : (cartOf db uid).isEmpty = true) :
    create_order db uid ship = (.error .emptyCart, db) := by
  unfold create_order
  dsimp only
  rw [if_pos h]

theorem create_order_of_loop_error (db : DB) (uid : Nat)
    (ship : Option String) (e : ApiError)
    (hne : (cartOf db uid).isEmpty = false)
    (h : checkoutLoop (pendingOrder db uid ship).id (cartOf db uid)
      (shellDB db uid ship) 0 = .error e) :
    create_order db uid ship = (.error e, shellDB db uid ship) := by
  unfold create_order
  dsimp only
  rw [if_neg (by simp [hne])]
  unfold shellDB at h
  rw [h]
  rfl

theorem create_order_of_loop_ok (db : DB) (uid : Nat) (ship : Option String)
    (db2 : DB) (t : Rat)
    (hne : (cartOf db uid).isEmpty = false)
    (h : checkoutLoop (pendingOrder db uid ship).id (cartOf db uid)
      (shellDB db uid ship) 0 = .ok (db2, t)) :
    create_order db uid ship
      = (.ok { pendingOrder db uid ship with total := t },
         replaceOrder db2 { pendingOrder db uid ship with total := t }) := by
  unfold create_order
  dsimp only
  rw [if_neg (by simp [hne])]
  unfold shellDB at h
  rw [h]

theorem checkoutLoop_err (oid : Nat) (items : List CartItem) (db : DB)
    (total : Rat)
    (hin : (items.map (fun c => c.product_id)).Nodup)
    (hbad : ∃ ci ∈ items, ∃ p, findProduct db ci.product_id = some p ∧
      p.stock_quantity < ci.quantity) :
    ∃ cj ∈ items, ∃ pj, findProduct db cj.product_id = some pj ∧
      pj.stock_quantity < cj.quantity ∧
      checkoutLoop oid items db total
        = .error (.insufficientStockFor pj.name pj.stock_quantity cj.quantity) := by
  induction items generalizing db total with
  | nil =>
    obtain ⟨ci, hci, _⟩ := hbad
    exact absurd hci (List.not_mem_nil _)
  | cons ci rest ih =>
    rw [List.map_cons, List.nodup_cons] at hin
    cases hf : findProduct db ci.product_id with
    | none =>
      obtain ⟨cj, hcj, pj, hpj, hlt⟩ := hbad
      have hcjr : cj ∈ rest := by
        rcases List.mem_cons.mp hcj with heq | hr
        · subst heq
          rw [hf] at hpj
          exact absurd hpj (by simp)
        · exact hr
      have hbad2 : ∃ c ∈ rest, ∃ p,
          findProduct { db with cartItems := removeCartRow db.cartItems ci.id }
            c.product_id = some p ∧ p.stock_quantity < c.quantity :=
        ⟨cj, hcjr, pj, hpj, hlt⟩
      obtain ⟨ck, hck, pk, hpk, hltk, hloop⟩ := ih _ _ hin.2 hbad2
      refine ⟨ck, List.mem_cons_of_mem _ hck, pk, hpk, hltk, ?_⟩
      rw [checkoutLoop_cons_missing oid ci rest db total hf]
      exact hloop
    | some prod =>
      by_cases hlt : prod.stock_quantity < ci.quantity
      · exact ⟨ci, List.mem_cons_self _ _, prod, hf, hlt,
          checkoutLoop_cons_abort oid ci rest db total prod hf hlt⟩
      · have hprodid : prod.id = ci.product_id := by
          simpa using List.find?_some hf
        obtain ⟨cj, hcj, pj, hpj, hltj⟩ := hbad
        have hcjr : cj ∈ rest := by
          rcases List.mem_cons.mp hcj with heq | hr
          · subst heq
            rw [hf] at hpj
            cases hpj
            exact absurd hltj hlt
          · exact hr
        have hcjne : ¬ cj.product_id = ci.product_id :=
          fun he => hin.1 (he ▸ List.mem_map_of_mem _ hcjr)
        have hbad2 : ∃ c ∈ rest, ∃ p,
            findProduct (stepDB oid db ci prod) c.product_id = some p ∧
            p.stock_quantity < c.quantity := by
          refine ⟨cj, hcjr, pj, ?_, hltj⟩
          rw [findProduct_stepDB_ne oid db ci prod hprodid _ hcjne]
          exact hpj
        obtain ⟨ck, hck, pk, hpk, hltk, hloop⟩ := ih _ _ hin.2 hbad2
        have hckne : ¬ ck.product_id = ci.product_id :=
          fun he => hin.1 (he ▸ List.mem_map_of_mem _ hck)
        have hpk2 : findProduct db ck.product_id = some pk := by
          rw [← findProduct_stepDB_ne oid db ci prod hprodid _ hckne]
          exact hpk
        refine ⟨ck, List.mem_cons_of_mem _ hck, pk, hpk2, hltk, ?_⟩
        rw [checkoutLoop_cons_step oid ci rest db total prod hf hlt]
        exact hloop

/-- C2 (amended): if any cart line item oversells its product, checkout
aborts entirely with InsufficientStock naming an overselling product;
but because the abort happens before the final commit and the
request-scoped session rolls back on close, the stock decrements applied
to items processed earlier in the loop do NOT remain in effect: the
persisted state after the failed request is exactly the shell-commit
state, whose products and cart rows are those of the initial state
unchanged, plus the pending order shell. -/
theorem checkout_abort_insufficient : ∀ (db : DB) (uid : Nat)
    (ship : Option String),
    ((cartOf db uid).map (fun c => c.product_id)).Nodup →
    (∃ ci ∈ cartOf db uid, ∃ p, findProduct db ci.product_id = some p ∧
      p.stock_quantity < ci.quantity) →
    ∃ cj ∈ cartOf db uid, ∃ pj, findProduct db cj.product_id = some pj ∧
      pj.stock_quantity < cj.quantity ∧
      create_order db uid ship
        = (.error (.insufficientStockFor pj.name pj.stock_quantity cj.quantity),
           shellDB db uid ship) ∧
      (shellDB db uid ship).products = db.products ∧
      (shellDB db uid ship).cartItems = db.cartItems ∧
      (shellDB db uid ship).orders = db.orders ++ [pendingOrder db uid ship] := by
  intro db uid ship hnodup hbad
  have hne : (cartOf db uid).isEmpty = false := by
    obtain ⟨ci, hci, _⟩ := hbad
    cases hc : cartOf db uid with
    | nil =>
      rw [hc] at hci
      exact absurd hci (List.not_mem_nil _)
    | cons a l => rfl
  have hbadS : ∃ ci ∈ cartOf db uid, ∃ p,
      findProduct (shellDB db uid ship) ci.product_id = some p ∧
      p.stock_quantity < ci.quantity := hbad
  obtain ⟨cj, hcj, pj, hpj, hlt, hloop⟩ :=
    checkoutLoop_err (pendingOrder db uid ship).id (cartOf db uid)
      (shellDB db uid ship) 0 hnodup hbadS
  exact ⟨cj, hcj, pj, hpj, hlt,
    create_order_of_loop_error db uid ship _ hne hloop, rfl, rfl, rfl⟩

/-- C2 (counterexample): in `dbAbort` the first cart row (product 1,
quantity 3, stock 10) is processed before the second row oversells
product 2; the claim predicts the persisted stock of product 1 is
decremented to 7 after the failed checkout, but the code leaves it at
10 — the decrement was never committed. -/
theorem checkout_abort_counterexample :
    (create_order dbAbort 1 none).1
      = .error (.insufficientStockFor "Bracelet" 1 5) ∧
    ((findProduct (create_order dbAbort 1 none).2 1).map
        (fun p => p.stock_quantity)) = some 10 ∧
    ¬ ((findProduct (create_order dbAbort 1 none).2 1).map
        (fun p => p.stock_quantity)) = some 7 := by
  refine ⟨?_, ?_, ?_⟩ <;> decide

theorem checkout_abort_insufficient_witness :
    create_order dbAbort 1 none
      = (.error (.insufficientStockFor "Bracelet" 1 5), shellDB dbAbort 1 none) := by
  have h := checkout_abort_insufficient dbAbort 1 none (by decide)
    ⟨{ id := 2, user_id := 1, product_id := 2, quantity := 5 }, by decide,
     { id := 2, name := "Bracelet", price := 50, stock_quantity := 1 },
     by decide, by decide⟩
  decide

/-- C9: when checkout aborts with InsufficientStock, the order shell
committed before the loop (status "pending", total 0) remains persisted:
the order table after the failed request is the old table plus that new
pending order. -/
theorem checkout_error_persists_pending_shell : ∀ (db : DB) (uid : Nat)
    (ship : Option String) (name : String) (a r : Int),
    (create_order db uid ship).1 = .error (.insufficientStockFor name a r) →
    (create_order db uid ship).2.orders
      = db.orders ++ [pendingOrder db uid ship] ∧
    (pendingOrder db uid ship).status = "pending" ∧
    (pendingOrder db uid ship).total = 0 := by
  intro db uid ship name a r h
  cases hemp : (cartOf db uid).isEmpty with
  | true =>
    rw [create_order_of_empty db uid ship hemp] at h
    exact absurd h (by simp)
  | false =>
    cases hloop : checkoutLoop (pendingOrder db uid ship).id (cartOf db uid)
        (shellDB db uid ship) 0 with
    | error e =>
      rw [create_order_of_loop_error db uid ship e hemp hloop]
      exact ⟨rfl, rfl, rfl⟩
    | ok pair =>
      obtain ⟨db2, t⟩ := pair
      rw [create_order_of_loop_ok db uid ship db2 t hemp hloop] at h
      exact absurd h (by simp)

theorem checkout_error_persists_pending_shell_witness :
    (create_order dbAbort 1 none).2.orders
      = dbAbort.orders ++ [pendingOrder dbAbort 1 none] ∧
    (pendingOrder dbAbort 1 none).status = "pending" ∧
    (pendingOrder dbAbort 1 none).total = 0 :=
  checkout_error_persists_pending_shell dbAbort 1 none "Bracelet" 1 5 (by decide)

theorem checkoutLoop_stock (oid : Nat) (items : List CartItem) (db : DB)
    (total : Rat) (db2 : DB) (t2 : Rat)
    (h : checkoutLoop oid items db total = .ok (db2, t2))
    (hnd : (db.products.map (fun p => p.id)).Nodup)
    (hnn : ∀ p ∈ db.products, 0 ≤ p.stock_quantity) :
    ∀ p2 ∈ db2.products, 0 ≤ p2.stock_quantity ∧
      ∃ p ∈ db.products, p.id = p2.id ∧
        (p2.in_stock = true → p.in_stock = true) ∧
        (p2.stock_quantity = 0 → p2.in_stock = false ∨ p2 = p) := by
  induction items generalizing db total with
  | nil =>
    rw [checkoutLoop] at h
    simp only [Except.ok.injEq, Prod.mk.injEq] at h
    obtain ⟨hdb, _⟩ := h
    subst hdb
    intro p2 hp2
    exact ⟨hnn p2 hp2, p2, hp2, rfl, fun hx => hx, fun _ => Or.inr rfl⟩
  | cons ci rest ih =>
    cases hf : findProduct db ci.product_id with
    | none =>
      rw [checkoutLoop_cons_missing oid ci rest db total hf] at h
      exact ih { db with cartItems := removeCartRow db.cartItems ci.id }
        total h hnd hnn
    | some prod =>
      by_cases hlt : prod.stock_quantity < ci.quantity
      · rw [checkoutLoop_cons_abort oid ci rest db total prod hf hlt] at h
        exact absurd h (by simp)
      · rw [checkoutLoop_cons_step oid ci rest db total prod hf hlt] at h
        have hprodmem : prod ∈ db.products := List.mem_of_find?_eq_some hf
        have hstep : ∀ p1 ∈ (stepDB oid db ci prod).products,
            0 ≤ p1.stock_quantity ∧
            ∃ p ∈ db.products, p.id = p1.id ∧
              (p1.in_stock = true → p.in_stock = true) ∧
              (p1.stock_quantity = 0 → p1.in_stock = false ∨ p1 = p) := by
          intro p1 hp1
          have hp1m : p1 ∈ db.products.map (fun q =>
              if q.id == (decrementProduct prod ci.quantity).id
              then decrementProduct prod ci.quantity else q) := hp1
          rw [List.mem_map] at hp1m
          obtain ⟨q, hq, hfq⟩ := hp1m
          by_cases hqid : q.id = prod.id
          · have hqprod : q = prod :=
              List.inj_on_of_nodup_map hnd hq hprodmem hqid
            rw [if_pos (by simp [decrementProduct, hqid])] at hfq
            subst hfq
            refine ⟨?_, prod, hprodmem, rfl, ?_, ?_⟩
            · exact Int.sub_nonneg.mpr (not_lt.mp hlt)
            · intro hs
              by_cases hz : prod.stock_quantity - ci.quantity = 0
              · exact absurd hs (by simp [decrementProduct, hz])
              · simpa [decrementProduct, hz] using hs
            · intro hz
              left
              simp [decrementProduct,
                show prod.stock_quantity - ci.quantity = 0 from hz]
          · rw [if_neg (by simp [decrementProduct, hqid])] at hfq
            subst hfq
            exact ⟨hnn q hq, q, hq, rfl, fun hx => hx, fun _ => Or.inr rfl⟩
        have hnd2 : ((stepDB oid db ci prod).products.map (fun p => p.id)).Nodup := by
          have heq : ((stepDB oid db ci prod).products.map (fun p => p.id))
              = db.products.map (fun p => p.id) :=
            mapId_replace db.products (decrementProduct prod ci.quantity)
          rw [heq]
          exact hnd
        have hnn2 : ∀ p1 ∈ (stepDB oid db ci prod).products, 0 ≤ p1.stock_quantity :=
          fun p1 hp1 => (hstep p1 hp1).1
        have key := ih (stepDB oid db ci prod) _ h hnd2 hnn2
        intro p2 hp2
        obtain ⟨hge, p1, hp1, hid, hmono, hzero⟩ := key p2 hp2
        obtain ⟨_, p, hp, hid2, hmono2, hzero2⟩ := hstep p1 hp1
        refine ⟨hge, p, hp, hid2.trans hid, fun hs => hmono2 (hmono hs), ?_⟩
        intro hz
        rcases hzero hz with hfalse | hpeq
        · exact Or.inl hfalse
        · subst hpeq
          rcases hzero2 hz with hfalse2 | heq2
          · exact Or.inl hfalse2
          · exact Or.inr heq2

/-- C10: checkout never drives the stock of any product negative: from
any state with non-negative stocks (and primary-key-unique product ids)
every product after `create_order` — on success or failure — has
non-negative stock, corresponds by id to a pre-checkout product, has its
`in_stock` flag never switched from false to true, and whenever its
stock was brought to exactly zero its `in_stock` flag is false. -/
theorem checkout_stock_invariant : ∀ (db : DB) (uid : Nat) (ship : Option String),
    (db.products.map (fun p => p.id)).Nodup →
    (∀ p ∈ db.products, 0 ≤ p.stock_quantity) →
    ∀ p2 ∈ (create_order db uid ship).2.products,
      0 ≤ p2.stock_quantity ∧
      ∃ p ∈ db.products, p.id = p2.id ∧
        (p2.in_stock = true → p.in_stock = true) ∧
        (p2.stock_quantity = 0 → p2.in_stock = false ∨ p2 = p) := by
  intro db uid ship hnd hnn
  cases hemp : (cartOf db uid).isEmpty with
  | true =>
    rw [create_order_of_empty db uid ship hemp]
    intro p2 hp2
    exact ⟨hnn p2 hp2, p2, hp2, rfl, fun hx => hx, fun _ => Or.inr rfl⟩
  | false =>
    cases hloop : checkoutLoop (pendingOrder db uid ship).id (cartOf db uid)
        (shellDB db uid ship) 0 with
    | error e =>
      rw [create_order_of_loop_error db uid ship e hemp hloop]
      intro p2 hp2
      exact ⟨hnn p2 hp2, p2, hp2, rfl, fun hx => hx, fun _ => Or.inr rfl⟩
    | ok pair =>
      obtain ⟨db2, t⟩ := pair
      rw [create_order_of_loop_ok db uid ship db2 t hemp hloop]
      intro p2 hp2
      have key := checkoutLoop_stock _ _ _ _ _ _ hloop hnd hnn p2 hp2
      exact key

theorem checkout_stock_invariant_witness :
    ((create_order dbRing 1 none).2.products.map (fun p => p.stock_quantity))
      = [7] ∧
    ((create_order dbRing 1 none).2.products.map (fun p => p.in_stock))
      = [true] := by
  have h := checkout_stock_invariant dbRing 1 none (by decide) (by decide)
  exact ⟨by decide, by decide⟩

theorem castSum_reviews (l : List Review) :
    (((l.map (fun r => r.rating)).sum : Int) : Rat)
      = (l.map (fun r => (r.rating : Rat))).sum := by
  induction l with
  | nil => simp
  | cons r rs ih => simp [ih]

theorem meanRating_eq (l : List Review) :
    (if 0 < l.length
      then (((l.map (fun r => r.rating)).sum : Int) : Rat) / (l.length : Rat)
      else 0)
      = meanRating l := by
  rw [meanRating]
  by_cases h : l.length = 0
  · simp [h]
  · rw [if_pos (Nat.pos_of_ne_zero h), if_neg h, castSum_reviews]

theorem aggOk_replace_recompute (db1 : DB) (product : Product) (pid : Nat)
    (hf : findProduct db1 pid = some product) :
    aggOk (replaceProduct db1
      { product with
          rating := if 0 < (reviewsFor db1 pid).length
            then ((((reviewsFor db1 pid).map (fun r => r.rating)).sum : Int) : Rat)
              / ((reviewsFor db1 pid).length : Rat)
            else 0
          review_count := (reviewsFor db1 pid).length }) pid := by
  have hpid : product.id = pid := by simpa using List.find?_some hf
  intro p hp
  rw [findProduct_replace_self db1
      { product with
          rating := if 0 < (reviewsFor db1 pid).length
            then ((((reviewsFor db1 pid).map (fun r => r.rating)).sum : Int) : Rat)
              / ((reviewsFor db1 pid).length : Rat)
            else 0
          review_count := (reviewsFor db1 pid).length }
      product pid hf hpid] at hp
  injection hp with hp2
  subst hp2
  constructor
  · rfl
  · exact meanRating_eq (reviewsFor db1 pid)

/-- C6: after a review insert that found its product, and after a
review delete by the author or an admin, the cached `rating` of the
reviewed product equals the arithmetic mean of all its remaining
ratings (0 when none remain) and its cached `review_count` equals
their number. -/
theorem review_aggregates_consistent :
    (∀ (db : DB) (uid pid : Nat) (r : Int) (c : Option String)
      (product : Product),
      findProduct db pid = some product →
      aggOk (create_review db uid pid r c).2 pid) ∧
    (∀ (db : DB) (caller : User) (rid : Nat) (rev : Review),
      findReview db rid = some rev →
      ¬ (rev.user_id ≠ caller.id ∧ caller.is_admin = false) →
      aggOk (delete_review db caller rid).2 rev.product_id) := by
  constructor
  · intro db uid pid r c product hf
    unfold create_review
    rw [hf]
    exact aggOk_replace_recompute _ product pid hf
  · intro db caller rid rev hf hperm
    unfold delete_review
    rw [hf]
    dsimp only
    rw [if_neg hperm]
    cases hf2 : findProduct { db with reviews := removeReviewRow db.reviews rev.id }
        rev.product_id with
    | none =>
      simp only [hf2]
      intro p hp
      rw [hf2] at hp
      exact absurd hp (by simp)
    | some product =>
      simp only [hf2]
      exact aggOk_replace_recompute _ product rev.product_id hf2

theorem review_aggregates_consistent_witness :
    ((findProduct (create_review dbNoReviews 1 1 5 none).2 1).map
        (fun p => (p.rating, p.review_count)))
      = some (((5 : Int) : Rat) / ((1 : Nat) : Rat), 1) ∧
    ((5 : Int) : Rat) / ((1 : Nat) : Rat) = 5 ∧
    ((findProduct (delete_review (create_review dbNoReviews 1 1 5 none).2
        { id := 1, email := "a@example.com", hashed_password := "h" } 1).2 1).map
        (fun p => (p.rating, p.review_count))) = some ((0 : Rat), 0) := by
  have h1 := review_aggregates_consistent.1 dbNoReviews 1 1 5 none
    { id := 1, name := "Ring", price := 100, stock_quantity := 9 } (by decide)
  have h2 := review_aggregates_consistent.2 (create_review dbNoReviews 1 1 5 none).2
    { id := 1, email := "a@example.com", hashed_password := "h" } 1
    { id := 1, user_id := 1, product_id := 1, rating := 5 } (by decide) (by decide)
  refine ⟨by rfl, by norm_num, by rfl⟩

theorem loopTotal_congr (db2 db : DB) (items : List CartItem)
    (h : ∀ ci ∈ items, findProduct db2 ci.product_id = findProduct db ci.product_id) :
    loopTotal db2 items = loopTotal db items := by
  unfold loopTotal
  congr 1
  apply List.map_congr_left
  intro ci hci
  unfold priceOf
  rw [h ci hci]

theorem checkoutLoop_ok (oid : Nat) (items : List CartItem) (db : DB) (total : Rat)
    (hin : (items.map (fun c => c.product_id)).Nodup)
    (hstock : ∀ ci ∈ items, ∃ p, findProduct db ci.product_id = some p ∧
      ci.quantity ≤ p.stock_quantity) :
    ∃ db2, checkoutLoop oid items db total = .ok (db2, total + loopTotal db items) ∧
      (∀ ci ∈ items, ∀ p, findProduct db ci.product_id = some p →
        findProduct db2 ci.product_id = some (decrementProduct p ci.quantity)) ∧
      db2.cartItems = removeAllCart db.cartItems (items.map (fun c => c.id)) ∧
      db2.orders = db.orders ∧
      (∀ pid, pid ∉ items.map (fun c => c.product_id) →
        findProduct db2 pid = findProduct db pid) := by
  induction items generalizing db total with
  | nil =>
    refine ⟨db, ?_, ?_, rfl, rfl, fun pid _ => rfl⟩
    · rw [checkoutLoop]
      simp [loopTotal]
    · intro ci hci
      exact absurd hci (List.not_mem_nil _)
  | cons ci rest ih =>
    obtain ⟨p, hp, hq⟩ := hstock ci (List.mem_cons_self _ _)
    have hlt : ¬ p.stock_quantity < ci.quantity := not_lt.mpr hq
    rw [List.map_cons, List.nodup_cons] at hin
    have hpid : p.id = ci.product_id := by simpa using List.find?_some hp
    have hstock2 : ∀ cj ∈ rest, ∃ pj,
        findProduct (stepDB oid db ci p) cj.product_id = some pj ∧
        cj.quantity ≤ pj.stock_quantity := by
      intro cj hcj
      have hne : ¬ cj.product_id = ci.product_id :=
        fun he => hin.1 (he ▸ List.mem_map_of_mem _ hcj)
      rw [findProduct_stepDB_ne oid db ci p hpid _ hne]
      exact hstock cj (List.mem_cons_of_mem _ hcj)
    obtain ⟨db2, hloop, hdec, hcart, hords, hframe⟩ :=
      ih (stepDB oid db ci p) (total + p.price * (ci.quantity : Rat)) hin.2 hstock2
    refine ⟨db2, ?_, ?_, ?_, ?_, ?_⟩
    · rw [checkoutLoop_cons_step oid ci rest db total p hp hlt, hloop]
      have htotw : loopTotal (stepDB oid db ci p) rest = loopTotal db rest :=
        loopTotal_congr _ _ rest (fun cj hcj => findProduct_stepDB_ne oid db ci p hpid _
          (fun he => hin.1 (he ▸ List.mem_map_of_mem _ hcj)))
      have hexp : loopTotal db (ci :: rest)
          = priceOf db ci.product_id * (ci.quantity : Rat) + loopTotal db rest := by
        unfold loopTotal
        rw [List.map_cons, List.sum_cons]
      have hpr : priceOf db ci.product_id = p.price := by
        unfold priceOf
        rw [hp]
        rfl
      rw [htotw, hexp, hpr, ← add_assoc]
    · intro cj hcj pj hpj
      rcases List.mem_cons.mp hcj with heq | hr
      · subst heq
        rw [hp] at hpj
        injection hpj with hpe
        subst hpe
        rw [hframe cj.product_id hin.1]
        exact findProduct_replace_self db (decrementProduct p cj.quantity) p
          cj.product_id hp hpid
      · have hne : ¬ cj.product_id = ci.product_id :=
          fun he => hin.1 (he ▸ List.mem_map_of_mem _ hr)
        apply hdec cj hr
        rw [findProduct_stepDB_ne oid db ci p hpid _ hne]
        exact hpj
    · rw [hcart]
      rfl
    · rw [hords]
      rfl
    · intro pid hpid2
      have h1 : ¬ pid = ci.product_id := fun he =>
        hpid2 (by rw [List.map_cons, he]; exact List.mem_cons_self _ _)
      have h2 : pid ∉ rest.map (fun c => c.product_id) := fun hm =>
        hpid2 (by rw [List.map_cons]; exact List.mem_cons_of_mem _ hm)
      rw [hframe pid h2, findProduct_stepDB_ne oid db ci p hpid _ h1]

/-- C1: for a user whose cart is non-empty, whose cart rows reference
pairwise-distinct products (the upsert invariant of spec section 3) and
have primary-key-unique row ids, and whose every line item is backed by
an existing product with sufficient stock, checkout returns an order
whose total is the sum over cart rows of price-at-checkout times
quantity, decrements each referenced product by the purchased quantity,
and leaves zero cart rows for that user. -/
theorem checkout_success : ∀ (db : DB) (uid : Nat) (ship : Option String),
    ¬ cartOf db uid = [] →
    ((cartOf db uid).map (fun c => c.product_id)).Nodup →
    (db.cartItems.map (fun c => c.id)).Nodup →
    (∀ ci ∈ cartOf db uid, ∃ p, findProduct db ci.product_id = some p ∧
      ci.quantity ≤ p.stock_quantity) →
    ∃ ord db2, create_order db uid ship = (.ok ord, db2) ∧
      ord.total = loopTotal db (cartOf db uid) ∧
      (∀ ci ∈ cartOf db uid, ∀ p, findProduct db ci.product_id = some p →
        findProduct db2 ci.product_id = some (decrementProduct p ci.quantity)) ∧
      cartOf db2 uid = [] := by
  intro db uid ship hne hnodup hcartnd hstock
  have hemp : (cartOf db uid).isEmpty = false := by
    cases hc : cartOf db uid with
    | nil => exact absurd hc hne
    | cons a l => rfl
  have hstockS : ∀ ci ∈ cartOf db uid, ∃ p,
      findProduct (shellDB db uid ship) ci.product_id = some p ∧
      ci.quantity ≤ p.stock_quantity := hstock
  obtain ⟨db2, hloop, hdec, hcart, hords, hframe⟩ :=
    checkoutLoop_ok (pendingOrder db uid ship).id (cartOf db uid)
      (shellDB db uid ship) 0 hnodup hstockS
  have heq := create_order_of_loop_ok db uid ship db2
    (0 + loopTotal (shellDB db uid ship) (cartOf db uid)) hemp hloop
  refine ⟨{ pendingOrder db uid ship with
      total := 0 + loopTotal (shellDB db uid ship) (cartOf db uid) },
    replaceOrder db2 { pendingOrder db uid ship with
      total := 0 + loopTotal (shellDB db uid ship) (cartOf db uid) },
    heq, ?_, ?_, ?_⟩
  · show 0 + loopTotal (shellDB db uid ship) (cartOf db uid)
      = loopTotal db (cartOf db uid)
    rw [zero_add]
    exact loopTotal_congr _ _ _ (fun ci _ => rfl)
  · intro ci hci p hp
    have hdecr := hdec ci hci p hp
    exact hdecr
  · show (db2.cartItems.filter (fun c => c.user_id == uid)) = []
    rw [hcart]
    refine removeAllCart_user_empty ((cartOf db uid).map (fun c => c.id))
      db.cartItems uid hcartnd ?_
    intro x hx hxu
    exact List.mem_map_of_mem _ (List.mem_filter.mpr ⟨hx, by simpa using hxu⟩)

theorem checkout_success_witness :
    ((create_order dbRing 1 none).1.toOption.map (fun o => o.total)) = some 300 ∧
    ((findProduct (create_order dbRing 1 none).2 1).map (fun p => p.stock_quantity))
      = some 7 ∧
    cartOf (create_order dbRing 1 none).2 1 = [] := by
  have hstock : ∀ ci ∈ cartOf dbRing 1, ∃ p,
      findProduct dbRing ci.product_id = some p ∧
      ci.quantity ≤ p.stock_quantity := by
    intro ci hci
    have hc : ci = { id := 1, user_id := 1, product_id := 1, quantity := 3 } := by
      have h2 : cartOf dbRing 1
          = [{ id := 1, user_id := 1, product_id := 1, quantity := 3 }] := by decide
      rw [h2] at hci
      simpa using hci
    subst hc
    exact ⟨{ id := 1, name := "Ring", price := 100, stock_quantity := 10 },
      by decide, by decide⟩
  obtain ⟨ord, db2, heq, htot, hdec, hcart⟩ :=
    checkout_success dbRing 1 none (by decide) (by decide) (by decide) hstock
  have hsnd : (create_order dbRing 1 none).2 = db2 := congrArg Prod.snd heq
  refine ⟨?_, ?_, ?_⟩
  · rw [heq]
    show some ord.total = some 300
    rw [htot]
    have hval : loopTotal dbRing (cartOf dbRing 1) = 300 := by
      norm_num [loopTotal, cartOf, priceOf, findProduct, dbRing, List.filter,
        List.find?]
    rw [hval]
  · have hfp : findProduct dbRing 1
        = some { id := 1, name := "Ring", price := 100, stock_quantity := 10 } := by
      decide
    have h7 := hdec { id := 1, user_id := 1, product_id := 1, quantity := 3 }
      (by decide) _ hfp
    rw [hsnd, h7]
    simp [decrementProduct]
  · rw [hsnd]
    exact hcart
